import Mathlib

/-!
Shallow embedding of the `model_controller` repository (generic CRUD controller
over an ORM) and verification of its specification claims.

Source files embedded:
  - `model_controller/controller.py` (`ModelController`)
  - `model_controller/filters.py` (`create_filter_model`)
  - `model_controller/processors/base.py` (`ProcessorBase`)

External collaborators (the ORM session, pydantic validation engine, pagination
strategy) are modelled through the narrow interfaces the code consumes: rows as
attribute maps, validated payload objects as lists of tri-state fields
(set/unset, null/value), and pagination as delegation of the built query.
-/

set_option autoImplicit false

namespace ModelCtrl

/-- A Python scalar value as used by payloads, filters and columns
(the repository only ever compares and filters integers and strings). -/
inductive Value : Type where
  | vInt (n : Int)
  | vStr (s : String)
deriving DecidableEq, Repr

/-- Python truthiness of an attribute value: `None`, `0` and `""` are falsy.
Embeds the `if self._polymorph_on and data_has_identity:` test. -/
def truthy : Option Value → Bool
  | none => false
  | some (.vInt n) => n != 0
  | some (.vStr s) => s != ""

/-- One field of a validated (pydantic) payload or filter object:
`isSet` is membership in `model_fields_set` (explicitly provided),
`value` is the current attribute value (`none` = Python `None`). -/
structure PayloadField : Type where
  name : String
  isSet : Bool
  value : Option Value
deriving DecidableEq, Repr

/-- `getattr(data, attr, None)` on a pydantic object: the attribute value if
the field exists, `None` otherwise. -/
def getattrPayload (p : List PayloadField) (attr : String) : Option Value :=
  match p.find? (fun f => f.name == attr) with
  | some f => f.value
  | none => none

/-- `model_dump(exclude_unset=True, exclude_none=True)`: the set, non-null
fields in declaration order. Used by `create` and by `get_many` on the
filter object. -/
def dumpSetNonNull (p : List PayloadField) : List (String × Value) :=
  p.filterMap (fun f =>
    if f.isSet then (f.value).map (fun v => (f.name, v)) else none)

/-- `model_dump(exclude_unset=True)`: the set fields, null values included.
Used by `update_object`. -/
def dumpSet (p : List PayloadField) : List (String × Option Value) :=
  (p.filter (fun f => f.isSet)).map (fun f => (f.name, f.value))

/-- SQLAlchemy column type as the repository discriminates it:
`isinstance(column.type, Integer)`, `isinstance(column.type, (String, AutoString))`,
anything else. -/
inductive ColumnType : Type where
  | integer
  | string
  | other
deriving DecidableEq, Repr

/-- A column of a declarative model's `__table__`. -/
structure Column : Type where
  name : String
  type : ColumnType
deriving DecidableEq, Repr

/-- A declarative ORM model class: its `__name__`, its
`__mapper_args__.get('polymorphic_on')` and
`__mapper_args__.get('polymorphic_identity')`, its `__table__.columns`
and its direct `__subclasses__()` (each of which may have further
subclasses of its own). -/
inductive ModelClass : Type where
  | mk (name : String) (polymorphOn : Option String)
      (polymorphicIdentity : Option Value) (columns : List Column)
      (subclasses : List ModelClass) : ModelClass

def ModelClass.name : ModelClass → String
  | .mk n _ _ _ _ => n

def ModelClass.polymorphOn : ModelClass → Option String
  | .mk _ p _ _ _ => p

def ModelClass.polymorphicIdentity : ModelClass → Option Value
  | .mk _ _ i _ _ => i

def ModelClass.columns : ModelClass → List Column
  | .mk _ _ _ c _ => c

def ModelClass.subclasses : ModelClass → List ModelClass
  | .mk _ _ _ _ s => s

/-- `getattr(self._model, name)` resolves iff the model has such a column. -/
def modelHasAttr (m : ModelClass) (a : String) : Bool :=
  m.columns.any (fun c => c.name == a)

/-- `ModelController._get_polymorph_on`, combined with the truthiness test
`if not self._polymorph_on:` at the top of `_get_actual_model`: the model
counts as polymorphic only when `polymorphic_on` is present and truthy
(a non-empty string). -/
def polymorphOnTruthy (m : ModelClass) : Bool :=
  match m.polymorphOn with
  | none => false
  | some s => s != ""

/-- `ModelController._get_actual_model`: for a non-polymorphic model return
the bound model; otherwise read the discriminator attribute off the payload,
and if it is truthy scan the direct subclasses for one whose
`polymorphic_identity` equals it, returning the first match; in every other
case raise `ControllerException(f"Cannot resolve the actual model for {name}")`. -/
def getActualModel (m : ModelClass) (data : List PayloadField) :
    Except String ModelClass :=
  match m.polymorphOn with
  | none => .ok m
  | some attr =>
    if attr == "" then .ok m
    else
      let dataHasIdentity := getattrPayload data attr
      if truthy dataHasIdentity then
        match m.subclasses.find?
            (fun sub => sub.polymorphicIdentity == dataHasIdentity) with
        | some sub => .ok sub
        | none => .error ("Cannot resolve the actual model for " ++ m.name)
      else .error ("Cannot resolve the actual model for " ++ m.name)

/-! ### Filter model generation (`model_controller/filters.py`) -/

/-- The scalar kind of a generated pydantic filter field
(`int | SkipJsonSchema[None]` or `str | SkipJsonSchema[None]`). -/
inductive FieldKind : Type where
  | int
  | str
deriving DecidableEq, Repr

/-- A generated pydantic field: its kind, its `description`, and its
default (`Field(None, ...)` always installs default `None`, so the field
is optional and absent unless supplied). -/
structure FieldSpec : Type where
  kind : FieldKind
  description : String
  default : Option Value
deriving DecidableEq, Repr

/-- Python-dict insertion into `model_fields`: overwrite in place when the
key exists, else append (insertion order preserved). -/
def dictInsert (d : List (String × FieldSpec)) (k : String) (v : FieldSpec) :
    List (String × FieldSpec) :=
  if d.any (fun p => p.fst == k) then
    d.map (fun p => if p.fst == k then (k, v) else p)
  else d ++ [(k, v)]

/-- The result of `pydantic.create_model(name, **model_fields)`: a schema
type with a name and ordered fields. -/
structure FilterModel : Type where
  name : String
  fields : List (String × FieldSpec)
deriving DecidableEq, Repr

/-- Contribution of one column to `model_fields` in `create_filter_model`:
integer columns add `c`, `c_lt`, `c_gt`; string columns add `c`, `c_like`;
other column types are skipped. -/
def filterFieldsStep (d : List (String × FieldSpec)) (col : Column) :
    List (String × FieldSpec) :=
  match col.type with
  | .integer =>
    dictInsert
      (dictInsert
        (dictInsert d col.name ⟨.int, "Filter by " ++ col.name, none⟩)
        (col.name ++ "_lt") ⟨.int, "Less than " ++ col.name, none⟩)
      (col.name ++ "_gt") ⟨.int, "Greater than " ++ col.name, none⟩
  | .string =>
    dictInsert
      (dictInsert d col.name ⟨.str, "Filter by " ++ col.name, none⟩)
      (col.name ++ "_like") ⟨.str, "Partial match for " ++ col.name, none⟩
  | .other => d

/-- `create_filter_model(model)`: iterate over `model.__table__.columns`
accumulating `model_fields`, then build the model named
`f'{model.__name__}Filter'`. -/
def create_filter_model (m : ModelClass) : FilterModel :=
  ⟨m.name ++ "Filter", m.columns.foldl filterFieldsStep []⟩

/-- Whether the generated schema has a field of the given name. -/
def FilterModel.hasField (fm : FilterModel) (k : String) : Bool :=
  fm.fields.any (fun p => p.fst == k)

/-! ### Rows and query predicates -/

/-- A persisted ORM row instance: its concrete class (`type(db_obj)`) and
its attribute map (`none` = SQL NULL / Python None). -/
structure RowObj : Type where
  cls : ModelClass
  attrs : List (String × Option Value)

/-- Attribute read on a row; a NULL attribute and an absent attribute both
read as `none` (SQL comparison semantics). -/
def rowGet (r : RowObj) (a : String) : Option Value :=
  match r.attrs.find? (fun p => p.fst == a) with
  | some p => p.snd
  | none => none

/-- Whether the row object carries the attribute at all. -/
def rowHasAttr (r : RowObj) (a : String) : Bool :=
  r.attrs.any (fun p => p.fst == a)

/-- The stored attribute cell, distinguishing NULL (`some none`) from
absent (`none`). -/
def rowGetCell (r : RowObj) (a : String) : Option (Option Value) :=
  (r.attrs.find? (fun p => p.fst == a)).map (fun p => p.snd)

/-- `setattr(db_obj, field, value)`: overwrite the attribute if present,
else add it. -/
def rowSet (r : RowObj) (a : String) (v : Option Value) : RowObj :=
  if r.attrs.any (fun p => p.fst == a) then
    ⟨r.cls, r.attrs.map (fun p => if p.fst == a then (a, v) else p)⟩
  else ⟨r.cls, r.attrs ++ [(a, v)]⟩

/-- SQL `column < value` on a (possibly NULL) attribute: NULL compares
false; integers and strings compare within their own type. -/
def cmpLt : Option Value → Value → Bool
  | some (.vInt a), .vInt b => a < b
  | some (.vStr a), .vStr b => a < b
  | _, _ => false

/-- SQL `column > value`. -/
def cmpGt : Option Value → Value → Bool
  | some (.vInt a), .vInt b => a > b
  | some (.vStr a), .vStr b => a > b
  | _, _ => false

/-- Whether `needle` is a prefix of `hay` (on character lists). -/
def charsPrefix : List Char → List Char → Bool
  | [], _ => true
  | _ :: _, [] => false
  | a :: as, b :: bs => a == b && charsPrefix as bs

/-- Whether `needle` occurs contiguously in `hay`. -/
def charsContains (needle : List Char) : List Char → Bool
  | [] => charsPrefix needle []
  | b :: bs => charsPrefix needle (b :: bs) || charsContains needle bs

/-- `f"%{value}%"` interpolation stringifies the filter value. -/
def valueToString : Value → String
  | .vInt n => toString n
  | .vStr s => s

/-- SQL `column LIKE '%value%'`: substring match on a text column;
NULL (or a non-text column value) matches nothing. -/
def cmpLike (ov : Option Value) (v : Value) : Bool :=
  match ov with
  | some (.vStr s) => charsContains (valueToString v).toList s.toList
  | _ => false

/-- Python `s.endswith(suffix)` (character-based): the last `len(suffix)`
characters of `s` equal `suffix`. -/
def strEndsWith (s suffix : String) : Bool :=
  s.toList.drop (s.toList.length - suffix.toList.length) == suffix.toList

/-- Python slicing `s[:-n]` for `0 < n ≤ len(s)` (character-based): drop
the last `n` characters. -/
def strDropRight (s : String) (n : Nat) : String :=
  ⟨s.toList.take (s.toList.length - n)⟩

/-- The column name a filter field targets: `field[:-3]` for `_lt`/`_gt`,
`field[:-5]` for `_like`, the field name itself otherwise
(the suffix dispatch of `get_many`). -/
def filterFieldBase (field : String) : String :=
  if strEndsWith field "_lt" then strDropRight field 3
  else if strEndsWith field "_gt" then strDropRight field 3
  else if strEndsWith field "_like" then strDropRight field 5
  else field

/-- The row predicate `get_many` applies for one set filter field:
`_lt` → less-than, `_gt` → greater-than, `_like` → substring match (each on
the suffix-stripped attribute), anything else → equality on the field name. -/
def fieldPred (field : String) (value : Value) (r : RowObj) : Bool :=
  if strEndsWith field "_lt" then cmpLt (rowGet r (strDropRight field 3)) value
  else if strEndsWith field "_gt" then cmpGt (rowGet r (strDropRight field 3)) value
  else if strEndsWith field "_like" then cmpLike (rowGet r (strDropRight field 5)) value
  else rowGet r field == some value

/-- `query.filter(getattr(self._model, base) <op> value)` for one dumped
filter field: `getattr` fails (AttributeError) when the model lacks the
targeted column, otherwise the rows are narrowed by the predicate. -/
def applyFilterField (m : ModelClass) (rows : List RowObj) (field : String)
    (value : Value) : Except String (List RowObj) :=
  if modelHasAttr m (filterFieldBase field) then
    .ok (rows.filter (fieldPred field value))
  else .error ("AttributeError: " ++ filterFieldBase field)

/-- The `for field, value in filters_dict.items():` loop of `get_many`. -/
def applyFilterFields (m : ModelClass) (fields : List (String × Value))
    (rows : List RowObj) : Except String (List RowObj) :=
  match fields with
  | [] => .ok rows
  | (f, v) :: rest =>
    match applyFilterField m rows f v with
    | .error e => .error e
    | .ok rows2 => applyFilterFields m rest rows2

/-! ### Controller, processors, operations (`model_controller/controller.py`) -/

/-- `model_controller/enums.py` is imported by the controller; its members
`CREATE`, `READ`, `UPDATE`, `DELETE` appear at every `_notify_processors`
call site. -/
inductive OperationType : Type where
  | CREATE
  | READ
  | UPDATE
  | DELETE
deriving DecidableEq, Repr

/-- The `data` argument of `ProcessorBase.process`
(`Optional[Union[CreateSchemaType, UpdateSchemaType]]` plus the row object
passed by `delete`). -/
inductive MutationData : Type where
  | schemaData (p : List PayloadField)
  | rowData (r : RowObj)

/-- The ambient context mapping (`self.context: dict`). -/
def Ctx : Type := List (String × Value)

/-- One `processor.process(operation, model, data, self.context)` call:
the four arguments as delivered. -/
structure Event : Type where
  operation : OperationType
  model : ModelClass
  data : Option MutationData
  context : Ctx

/-- A registered processor: an identity (its registration handle) and its
`process` behaviour, which performs an external side effect and may raise. -/
structure Proc : Type where
  pid : Nat
  behavior : Event → Except String Unit

/-- Controller state: the bound model, whether a pagination strategy is
configured (`self.pagination_method is not None`), the registered
processors in registration order, and the ambient context. -/
structure Controller : Type where
  model : ModelClass
  paginate : Bool
  processors : List Proc
  context : Ctx

/-- `ModelController._notify_processors`: call each processor's `process`
in registration order. Returns the pids invoked (in order) and the first
uncaught exception, which aborts the remaining calls. -/
def notifyTrace (procs : List Proc) (ev : Event) : List Nat × Option String :=
  match procs with
  | [] => ([], none)
  | p :: rest =>
    match p.behavior ev with
    | .error e => ([p.pid], some e)
    | .ok _ =>
      match notifyTrace rest ev with
      | (tr, res) => (p.pid :: tr, res)

/-- The filtering stage of `get_many`: `db.query(self._model)` (the table
rows; explicit `*args`/`**kwargs` predicates are opaque session inputs and
omitted) narrowed by the dumped fields of the filter object, if one is
supplied. -/
def queryRows (c : Controller) (db : List RowObj)
    (filters : Option (List PayloadField)) : Except String (List RowObj) :=
  match filters with
  | none => .ok db
  | some fo => applyFilterFields c.model (dumpSetNonNull fo) db

/-- Result of `get_many`: either handed to the configured pagination
strategy (external; it receives the built query) or materialized with
`query.all()`. -/
inductive QueryOutcome : Type where
  | paged (rows : List RowObj)
  | allRows (rows : List RowObj)

/-- Observable outcome of a `get_many` call: the returned value or the
propagated exception, the `_notify_processors` calls made (each with its
full argument tuple), and the processors invoked. -/
structure GetManyOut : Type where
  result : Except String QueryOutcome
  events : List Event
  invoked : List Nat

/-- `ModelController.get_many`: build the filtered query; with pagination
configured, delegate to the strategy and return (no processor
notification); otherwise notify processors with
`(READ, self._model, filters, self.context)` and return all rows. -/
def get_many (c : Controller) (db : List RowObj)
    (filters : Option (List PayloadField)) : GetManyOut :=
  match queryRows c db filters with
  | .error e => ⟨.error e, [], []⟩
  | .ok rows =>
    if c.paginate then ⟨.ok (.paged rows), [], []⟩
    else
      let ev : Event := ⟨.READ, c.model, filters.map .schemaData, c.context⟩
      match notifyTrace c.processors ev with
      | (tr, some e) => ⟨.error e, [ev], tr⟩
      | (tr, none) => ⟨.ok (.allRows rows), [ev], tr⟩

/-- `model_class(**obj_create_data)`: the new row instance of the resolved
class, its attributes exactly the dumped (set, non-null) payload fields. -/
def createdRow (mc : ModelClass) (payload : List PayloadField) : RowObj :=
  ⟨mc, (dumpSetNonNull payload).map (fun nv => (nv.fst, some nv.snd))⟩

/-- Observable outcome of a `create` call: the table after `add`/`flush`,
the returned row or propagated exception, the notification calls, and the
processors invoked. -/
structure CreateOut : Type where
  db : List RowObj
  result : Except String RowObj
  events : List Event
  invoked : List Nat

/-- `ModelController.create`: resolve the concrete class, build the row
from `model_dump(exclude_none=True, exclude_unset=True)`, `add` + `flush`
it, notify processors with `(CREATE, model_class, obj_create, context)`,
return the new row. A resolution failure raises before anything is
persisted; a processor exception propagates after persistence. -/
def create (c : Controller) (db : List RowObj) (payload : List PayloadField) :
    CreateOut :=
  match getActualModel c.model payload with
  | .error e => ⟨db, .error e, [], []⟩
  | .ok mc =>
    let row : RowObj := createdRow mc payload
    let db2 := db ++ [row]
    let ev : Event := ⟨.CREATE, mc, some (.schemaData payload), c.context⟩
    match notifyTrace c.processors ev with
    | (tr, some e) => ⟨db2, .error e, [ev], tr⟩
    | (tr, none) => ⟨db2, .ok row, [ev], tr⟩

/-- The `for field, value in obj_update_data.items(): setattr(...)` loop. -/
def applySetattrs (r : RowObj) (fields : List (String × Option Value)) :
    RowObj :=
  fields.foldl (fun acc nv => rowSet acc nv.fst nv.snd) r

/-- Observable outcome of an `update_object` call. -/
structure UpdateOut : Type where
  obj : RowObj
  result : Except String RowObj
  events : List Event
  invoked : List Nat

/-- `ModelController.update_object`: dump the payload with
`exclude_unset=True` only (nulls kept), `setattr` each dumped field onto
the row, `add` + `flush`, notify processors with
`(UPDATE, type(db_obj), obj_update, context)`, return the row. -/
def update_object (c : Controller) (db_obj : RowObj)
    (payload : List PayloadField) : UpdateOut :=
  let obj2 := applySetattrs db_obj (dumpSet payload)
  let ev : Event := ⟨.UPDATE, obj2.cls, some (.schemaData payload), c.context⟩
  match notifyTrace c.processors ev with
  | (tr, some e) => ⟨obj2, .error e, [ev], tr⟩
  | (tr, none) => ⟨obj2, .ok obj2, [ev], tr⟩

/-- Observable outcome of a `delete` call. -/
structure DeleteOut : Type where
  result : Except String Bool
  events : List Event
  invoked : List Nat

/-- `ModelController.delete`: `db.delete(db_obj)` + `flush` (session
effects are external), notify processors with
`(DELETE, type(db_obj), db_obj, context)`, return `True`. -/
def delete (c : Controller) (db_obj : RowObj) : DeleteOut :=
  let ev : Event := ⟨.DELETE, db_obj.cls, some (.rowData db_obj), c.context⟩
  match notifyTrace c.processors ev with
  | (tr, some e) => ⟨.error e, [ev], tr⟩
  | (tr, none) => ⟨.ok true, [ev], tr⟩

/-- `ModelController.set_context`: a `@contextmanager` that installs the
mapping, yields to the block (which reads and may transform the controller
and produce a value or raise), and in `finally` resets the context to `{}`
before the value or exception leaves the block. -/
def set_context {α : Type} (c : Controller) (ctx : Ctx)
    (body : Controller → Except String α × Controller) :
    Except String α × Controller :=
  let c1 : Controller := { c with context := ctx }
  let rc := body c1
  (rc.fst, { rc.snd with context := [] })

/-! ### Proof-side characterizations -/

/-- Characterization used in proofs: the filter-field names one column
contributes in `create_filter_model`. -/
def colContrib (col : Column) (k : String) : Bool :=
  match col.type with
  | .integer =>
    col.name == k || (col.name ++ "_lt") == k || (col.name ++ "_gt") == k
  | .string => col.name == k || (col.name ++ "_like") == k
  | .other => false

/-! ### Concrete instances (mirroring `tests/models.py`) for witnesses -/

/-- A plain entity with an integer `id` and a text `name` column. -/
def userModel : ModelClass :=
  .mk "User" none none [⟨"id", .integer⟩, ⟨"name", .string⟩] []

/-- A stored `userModel` row. -/
def mkUserRow (i : Int) (nm : String) : RowObj :=
  ⟨userModel, [("id", some (.vInt i)), ("name", some (.vStr nm))]⟩

/-- Ten rows with sequential identities 1..10. -/
def userRows10 : List RowObj :=
  (List.range 10).map (fun k => mkUserRow (Int.ofNat k + 1) ("u" ++ toString (k + 1)))

/-- A processor whose `process` succeeds on every event. -/
def okProc (i : Nat) : Proc := ⟨i, fun _ => .ok ()⟩

/-- A processor whose `process` raises on every event. -/
def failProc (i : Nat) (e : String) : Proc := ⟨i, fun _ => .error e⟩

/-- Controller on `userModel`, no pagination, no processors. -/
def userCtrl : Controller := ⟨userModel, false, [], []⟩

/-- Controller on `userModel` with a pagination strategy configured. -/
def userCtrlPag : Controller := ⟨userModel, true, [], []⟩

/-- Controller on `userModel` with two succeeding processors. -/
def userCtrl2 : Controller := ⟨userModel, false, [okProc 0, okProc 1], []⟩

/-- Controller whose second processor raises. -/
def userCtrlFail : Controller :=
  ⟨userModel, false, [okProc 0, failProc 1 "processor boom", okProc 2], []⟩

/-- `SubModelA` of the polymorphic test hierarchy. -/
def subModelA : ModelClass :=
  .mk "SubModelA" (some "type") (some (.vStr "SubModelA"))
    [⟨"type", .string⟩, ⟨"id", .integer⟩, ⟨"name", .string⟩,
     ⟨"extra_field_a", .string⟩] []

/-- `SubModelB` of the polymorphic test hierarchy. -/
def subModelB : ModelClass :=
  .mk "SubModelB" (some "type") (some (.vStr "SubModelB"))
    [⟨"type", .string⟩, ⟨"id", .integer⟩, ⟨"name", .string⟩,
     ⟨"extra_field_b", .string⟩] []

/-- `PolymorphicModel`, discriminated on its `type` column, with two direct
subclasses. -/
def polyModel : ModelClass :=
  .mk "PolymorphicModel" (some "type") none
    [⟨"type", .string⟩, ⟨"id", .integer⟩, ⟨"name", .string⟩]
    [subModelA, subModelB]

/-- Controller bound to the polymorphic base. -/
def polyCtrl : Controller := ⟨polyModel, false, [], []⟩

/-- An entity owning both a `score` column and a column literally named
`score_lt`. -/
def scoreModel : ModelClass :=
  .mk "Scored" none none [⟨"score", .integer⟩, ⟨"score_lt", .integer⟩] []

/-- A grand-child class with its own polymorphic identity, reachable only
transitively from the base. -/
def deepSub : ModelClass :=
  .mk "DeepSub" (some "kind") (some (.vStr "deep")) [] []

/-- First direct subclass (identity `"a"`), parent of `deepSub`. -/
def midSubA : ModelClass :=
  .mk "MidSubA" (some "kind") (some (.vStr "a")) [] [deepSub]

/-- Second direct subclass declaring the same identity `"a"`. -/
def midSubB : ModelClass :=
  .mk "MidSubB" (some "kind") (some (.vStr "a")) [] []

/-- Base of the three-level hierarchy used for `_get_actual_model` scans. -/
def deepBase : ModelClass :=
  .mk "DeepBase" (some "kind") none [⟨"kind", .string⟩] [midSubA, midSubB]

/-- Controller bound to `deepBase`. -/
def deepCtrl : Controller := ⟨deepBase, false, [], []⟩

/-- A subclass whose declared polymorphic identity is the empty string. -/
def subEmptyIdent : ModelClass :=
  .mk "SubEmpty" (some "type") (some (.vStr "")) [] []

/-- A polymorphic base one of whose subclasses declares identity `""`. -/
def emptyIdentBase : ModelClass :=
  .mk "EmptyBase" (some "type") none [⟨"type", .string⟩] [subEmptyIdent]

/-- Controller bound to `emptyIdentBase`. -/
def emptyIdentCtrl : Controller := ⟨emptyIdentBase, false, [], []⟩

/-- A payload whose discriminator field is explicitly set to `""` — equal
to `subEmptyIdent`'s declared identity, but falsy in Python. -/
def emptyIdentPayload : List PayloadField :=
  [⟨"type", true, some (.vStr "")⟩]

/-- A simple create/update payload setting `name`. -/
def payloadW : List PayloadField := [⟨"name", true, some (.vStr "x")⟩]

/-- A payload whose discriminator matches only the grand-child `deepSub`. -/
def payloadDeep : List PayloadField := [⟨"kind", true, some (.vStr "deep")⟩]

/-- A payload whose discriminator matches both direct subclasses of
`deepBase`. -/
def payloadMid : List PayloadField := [⟨"kind", true, some (.vStr "a")⟩]

/-- A filter object with only `id_lt = 5` set. -/
def foIdLt5 : List PayloadField := [⟨"id_lt", true, some (.vInt 5)⟩]

/-- An update payload explicitly nulling `name`. -/
def updPayloadW : List PayloadField := [⟨"name", true, none⟩]

/-- A stored row to update or delete in witnesses. -/
def objW : RowObj := mkUserRow 1 "u1"

/-- A `set_context` block body that raises. -/
def bodyFail : Controller → Except String Unit × Controller :=
  fun ctl => (.error "ctx fail", ctl)

/-- A concrete ambient context mapping. -/
def ctxW : Ctx := [("request_id", .vStr "r1")]

/-! ### Helper lemmas -/

theorem notifyTrace_all_ok (procs : List Proc) (ev : Event)
    (h : ∀ p ∈ procs, p.behavior ev = .ok ()) :
    notifyTrace procs ev = (procs.map Proc.pid, none) := by
  induction procs with
  | nil => rfl
  | cons p rest ih =>
    have hp := h p (List.mem_cons_self p rest)
    have hr := ih (fun q hq => h q (List.mem_cons_of_mem p hq))
    simp only [notifyTrace, hp, hr, List.map_cons]

theorem notifyTrace_fail (l1 l2 : List Proc) (p : Proc) (ev : Event) (e : String)
    (h1 : ∀ q ∈ l1, q.behavior ev = .ok ()) (hp : p.behavior ev = .error e) :
    notifyTrace (l1 ++ p :: l2) ev = (l1.map Proc.pid ++ [p.pid], some e) := by
  induction l1 with
  | nil => simp only [List.nil_append, notifyTrace, hp, List.map_nil]
  | cons q rest ih =>
    have hq := h1 q (List.mem_cons_self q rest)
    have hr := ih (fun r hr => h1 r (List.mem_cons_of_mem q hr))
    simp only [List.cons_append, notifyTrace, hq, List.append_eq, hr, List.map_cons]

theorem applyFilterFields_ok (m : ModelClass) (fields : List (String × Value))
    (rows : List RowObj)
    (h : ∀ fv ∈ fields, modelHasAttr m (filterFieldBase fv.fst) = true) :
    applyFilterFields m fields rows =
      .ok (rows.filter (fun r =>
        fields.all (fun fv => fieldPred fv.fst fv.snd r))) := by
  induction fields generalizing rows with
  | nil => simp [applyFilterFields]
  | cons fv rest ih =>
    obtain ⟨f, v⟩ := fv
    have hf : modelHasAttr m (filterFieldBase f) = true := h (f, v) (List.mem_cons_self _ _)
    have hr := ih (rows.filter (fieldPred f v)) (fun q hq => h q (List.mem_cons_of_mem _ hq))
    simp only [applyFilterFields, applyFilterField, hf, if_true, hr]
    congr 1
    rw [List.filter_filter]
    apply List.filter_congr
    intro r _
    simp [Bool.and_comm]

theorem dumpSetNonNull_append (p q : List PayloadField) :
    dumpSetNonNull (p ++ q) = dumpSetNonNull p ++ dumpSetNonNull q := by
  simp [dumpSetNonNull, List.filterMap_append]

theorem dumpSetNonNull_excluded (f : PayloadField)
    (hf : f.isSet = false ∨ f.value = none) :
    dumpSetNonNull [f] = [] := by
  rcases hf with h | h <;> simp [dumpSetNonNull, h]

theorem mem_dumpSetNonNull (p : List PayloadField) (n : String) (v : Value) :
    (n, v) ∈ dumpSetNonNull p ↔
      ∃ f ∈ p, f.name = n ∧ f.isSet = true ∧ f.value = some v := by
  simp only [dumpSetNonNull, List.mem_filterMap]
  constructor
  · rintro ⟨f, hf, hg⟩
    cases hs : f.isSet with
    | false => rw [hs] at hg; simp at hg
    | true =>
      rw [hs, if_pos rfl] at hg
      cases hv : f.value with
      | none => rw [hv] at hg; simp at hg
      | some w =>
        rw [hv] at hg
        simp only [Option.map_some'] at hg
        obtain ⟨h1, h2⟩ := Prod.mk.inj (Option.some.inj hg)
        exact ⟨f, hf, h1, hs, by rw [hv, h2]⟩
  · rintro ⟨f, hf, h1, h2, h3⟩
    exact ⟨f, hf, by rw [h2, if_pos rfl, h3, Option.map_some', h1]⟩

theorem strEndsWith_drop (s suffix : String) (h : strEndsWith s suffix = true) :
    s.toList.drop (s.toList.length - suffix.toList.length) = suffix.toList := by
  unfold strEndsWith at h
  exact eq_of_beq h

theorem strEndsWith_length (s suffix : String) (h : strEndsWith s suffix = true) :
    suffix.toList.length ≤ s.toList.length := by
  have hd := congrArg List.length (strEndsWith_drop s suffix h)
  rw [List.length_drop] at hd
  omega

theorem strDropRight_ne (s suffix : String) (hs : strEndsWith s suffix = true)
    (hne : suffix.toList.length ≠ 0) :
    strDropRight s suffix.toList.length ≠ s := by
  intro heq
  have hk := strEndsWith_length s suffix hs
  have hlen := congrArg (fun t => t.toList.length) heq
  have htake : (strDropRight s suffix.toList.length).toList =
      s.toList.take (s.toList.length - suffix.toList.length) := rfl
  simp only [htake, List.length_take] at hlen
  omega

theorem strEndsWith_suffix_of_suffix (s a b : String)
    (ha : strEndsWith s a = true) (hlen : b.toList.length ≤ a.toList.length) :
    strEndsWith s b = strEndsWith a b := by
  have hd := strEndsWith_drop s a ha
  have hna := strEndsWith_length s a ha
  have key : s.toList.drop (s.toList.length - b.toList.length) =
      a.toList.drop (a.toList.length - b.toList.length) := by
    have h2 : a.toList.drop (a.toList.length - b.toList.length) =
        (s.toList.drop (s.toList.length - a.toList.length)).drop
          (a.toList.length - b.toList.length) := by rw [hd]
    rw [h2, List.drop_drop]
    congr 1
    omega
  unfold strEndsWith
  rw [key]

theorem mem_dumpSet (p : List PayloadField) (f : PayloadField)
    (hf : f ∈ p) (hs : f.isSet = true) : (f.name, f.value) ∈ dumpSet p := by
  simp only [dumpSet, List.mem_map]
  exact ⟨f, List.mem_filter.mpr ⟨hf, hs⟩, rfl⟩

theorem dumpSet_names_nodup (p : List PayloadField)
    (h : (p.map PayloadField.name).Nodup) :
    ((dumpSet p).map Prod.fst).Nodup := by
  have heq : (dumpSet p).map Prod.fst =
      (p.filter (fun f => f.isSet)).map PayloadField.name := by
    simp [dumpSet, List.map_map]
  rw [heq]
  exact h.sublist ((List.filter_sublist p).map PayloadField.name)

theorem dumpSet_names_ne (p : List PayloadField) (a : String)
    (h : ∀ f ∈ p, f.isSet = true → f.name ≠ a) :
    ∀ nv ∈ dumpSet p, nv.fst ≠ a := by
  intro nv hnv
  simp only [dumpSet, List.mem_map] at hnv
  obtain ⟨f, hf, rfl⟩ := hnv
  have hmem := List.mem_filter.mp hf
  exact h f hmem.1 (by simpa using hmem.2)

theorem rowSet_cls (r : RowObj) (a : String) (v : Option Value) :
    (rowSet r a v).cls = r.cls := by
  unfold rowSet
  split <;> rfl

theorem find?_cons_true {α : Type} (p : α → Bool) (a : α) (l : List α)
    (h : p a = true) : (a :: l).find? p = some a := by
  rw [List.find?_cons, h]

theorem find?_cons_false {α : Type} (p : α → Bool) (a : α) (l : List α)
    (h : p a = false) : (a :: l).find? p = l.find? p := by
  rw [List.find?_cons, h]

theorem find?_map_set (l : List (String × Option Value)) (a : String)
    (v : Option Value) :
    (l.map (fun p => if p.fst == a then (a, v) else p)).find?
        (fun p => p.fst == a) =
      if l.any (fun p => p.fst == a) then some (a, v) else none := by
  induction l with
  | nil => rfl
  | cons q rest ih =>
    by_cases hq : (q.fst == a) = true
    · rw [List.map_cons, if_pos hq,
        find?_cons_true (fun p => p.fst == a) (a, v) _ (by simp),
        if_pos (by rw [List.any_cons, hq, Bool.true_or])]
    · have hq2 : (q.fst == a) = false := by simpa using hq
      rw [List.map_cons, if_neg hq,
        find?_cons_false (fun p => p.fst == a) q _ hq2, ih,
        List.any_cons, hq2, Bool.false_or]

theorem find?_map_set_other (l : List (String × Option Value)) (a b : String)
    (v : Option Value) (hab : a ≠ b) :
    (l.map (fun p => if p.fst == a then (a, v) else p)).find?
        (fun p => p.fst == b) =
      l.find? (fun p => p.fst == b) := by
  induction l with
  | nil => rfl
  | cons q rest ih =>
    by_cases hq : (q.fst == a) = true
    · have hqa : q.fst = a := by simpa using hq
      have h1 : (((a, v) : String × Option Value).fst == b) = false := by
        simpa using hab
      have h2 : (q.fst == b) = false := by rw [hqa]; simpa using hab
      rw [List.map_cons, if_pos hq,
        find?_cons_false (fun p => p.fst == b) (a, v) _ h1,
        find?_cons_false (fun p => p.fst == b) q _ h2, ih]
    · by_cases hqb : (q.fst == b) = true
      · rw [List.map_cons, if_neg hq,
          find?_cons_true (fun p => p.fst == b) q _ hqb,
          find?_cons_true (fun p => p.fst == b) q _ hqb]
      · have hqb2 : (q.fst == b) = false := by simpa using hqb
        rw [List.map_cons, if_neg hq,
          find?_cons_false (fun p => p.fst == b) q _ hqb2,
          find?_cons_false (fun p => p.fst == b) q _ hqb2, ih]

theorem find?_append_single (l : List (String × Option Value)) (a : String)
    (v : Option Value) (h : l.find? (fun p => p.fst == a) = none) :
    (l ++ [(a, v)]).find? (fun p => p.fst == a) = some (a, v) := by
  induction l with
  | nil =>
    rw [List.nil_append, find?_cons_true (fun p => p.fst == a) (a, v) _ (by simp)]
  | cons q rest ih =>
    have hq : (q.fst == a) = false := by
      cases hc : (q.fst == a) with
      | false => rfl
      | true =>
        rw [find?_cons_true (fun p => p.fst == a) q _ hc] at h
        cases h
    rw [find?_cons_false (fun p => p.fst == a) q _ hq] at h
    rw [List.cons_append, find?_cons_false (fun p => p.fst == a) q _ hq]
    exact ih h

theorem find?_append_single_other (l : List (String × Option Value))
    (a b : String) (v : Option Value) (hab : a ≠ b) :
    (l ++ [(a, v)]).find? (fun p => p.fst == b) =
      l.find? (fun p => p.fst == b) := by
  induction l with
  | nil =>
    rw [List.nil_append,
      find?_cons_false (fun p => p.fst == b) (a, v) _ (by simpa using hab)]
  | cons q rest ih =>
    by_cases hq : (q.fst == b) = true
    · rw [List.cons_append, find?_cons_true (fun p => p.fst == b) q _ hq,
        find?_cons_true (fun p => p.fst == b) q _ hq]
    · have hq2 : (q.fst == b) = false := by simpa using hq
      rw [List.cons_append, find?_cons_false (fun p => p.fst == b) q _ hq2,
        find?_cons_false (fun p => p.fst == b) q _ hq2, ih]

theorem rowGetCell_rowSet_same (r : RowObj) (a : String) (v : Option Value) :
    rowGetCell (rowSet r a v) a = some v := by
  obtain ⟨cls, attrs⟩ := r
  unfold rowSet rowGetCell
  by_cases h : attrs.any (fun p => p.fst == a) = true
  · rw [if_pos h]
    show ((attrs.map (fun p => if p.fst == a then (a, v) else p)).find?
        (fun p => p.fst == a)).map Prod.snd = some v
    rw [find?_map_set, if_pos h]
    rfl
  · rw [if_neg h]
    show (((attrs ++ [(a, v)]).find? (fun p => p.fst == a)).map Prod.snd) = some v
    have hn : attrs.find? (fun p => p.fst == a) = none := by
      rw [List.find?_eq_none]
      intro x hx hpx
      exact absurd (List.any_eq_true.mpr ⟨x, hx, hpx⟩) h
    rw [find?_append_single attrs a v hn]
    rfl

theorem rowGetCell_rowSet_other (r : RowObj) (a b : String) (v : Option Value)
    (hab : a ≠ b) : rowGetCell (rowSet r a v) b = rowGetCell r b := by
  obtain ⟨cls, attrs⟩ := r
  unfold rowSet rowGetCell
  by_cases h : attrs.any (fun p => p.fst == a) = true
  · rw [if_pos h]
    show ((attrs.map (fun p => if p.fst == a then (a, v) else p)).find?
        (fun p => p.fst == b)).map Prod.snd = _
    rw [find?_map_set_other attrs a b v hab]
  · rw [if_neg h]
    show (((attrs ++ [(a, v)]).find? (fun p => p.fst == b)).map Prod.snd) = _
    rw [find?_append_single_other attrs a b v hab]

theorem applySetattrs_cons (r : RowObj) (nv : String × Option Value)
    (rest : List (String × Option Value)) :
    applySetattrs r (nv :: rest) = applySetattrs (rowSet r nv.fst nv.snd) rest := rfl

theorem applySetattrs_cls (r : RowObj) (fields : List (String × Option Value)) :
    (applySetattrs r fields).cls = r.cls := by
  induction fields generalizing r with
  | nil => rfl
  | cons nv rest ih => rw [applySetattrs_cons, ih, rowSet_cls]

theorem applySetattrs_get_notin (r : RowObj)
    (fields : List (String × Option Value)) (a : String)
    (ha : ∀ nv ∈ fields, nv.fst ≠ a) :
    rowGetCell (applySetattrs r fields) a = rowGetCell r a := by
  induction fields generalizing r with
  | nil => rfl
  | cons nv rest ih =>
    rw [applySetattrs_cons,
      ih _ (fun q hq => ha q (List.mem_cons_of_mem _ hq)),
      rowGetCell_rowSet_other _ _ _ _ (ha nv (List.mem_cons_self _ _))]

theorem applySetattrs_get_mem (r : RowObj)
    (fields : List (String × Option Value)) (a : String) (v : Option Value)
    (hmem : (a, v) ∈ fields) (hnd : (fields.map Prod.fst).Nodup) :
    rowGetCell (applySetattrs r fields) a = some v := by
  induction fields generalizing r with
  | nil => cases hmem
  | cons nv rest ih =>
    rw [applySetattrs_cons]
    rw [List.map_cons] at hnd
    obtain ⟨hnot, hnd2⟩ := List.nodup_cons.mp hnd
    rcases List.mem_cons.mp hmem with heq | hrest
    · have hfst : nv.fst = a := by rw [← heq]
      have hna : ∀ q ∈ rest, q.fst ≠ a := by
        intro q hq hqa
        apply hnot
        rw [hfst]
        exact hqa ▸ List.mem_map.mpr ⟨q, hq, rfl⟩
      rw [applySetattrs_get_notin _ _ _ hna, ← heq]
      exact rowGetCell_rowSet_same r a v
    · exact ih _ hrest hnd2

theorem any_dictInsert (d : List (String × FieldSpec)) (k k' : String)
    (v : FieldSpec) :
    (dictInsert d k v).any (fun p => p.fst == k') =
      (d.any (fun p => p.fst == k') || (k == k')) := by
  unfold dictInsert
  by_cases h : d.any (fun p => p.fst == k) = true
  · rw [if_pos h]
    by_cases hk : k = k'
    · subst hk
      rw [beq_self_eq_true, Bool.or_true]
      obtain ⟨p, hp, hpk⟩ := List.any_eq_true.mp h
      exact List.any_eq_true.mpr
        ⟨(k, v), List.mem_map.mpr ⟨p, hp, by rw [if_pos hpk]⟩, by simp⟩
    · have hkk : (k == k') = false := by simpa using hk
      rw [hkk, Bool.or_false, List.any_map]
      apply congrArg (List.any d)
      funext p
      by_cases hpk : (p.fst == k) = true
      · have hpa : p.fst = k := by simpa using hpk
        show ((if p.fst == k then (k, v) else p).fst == k') = (p.fst == k')
        rw [if_pos hpk]
        show (k == k') = (p.fst == k')
        rw [hpa]
      · show ((if p.fst == k then (k, v) else p).fst == k') = (p.fst == k')
        rw [if_neg hpk]
  · rw [if_neg h, List.any_append, List.any_cons, List.any_nil, Bool.or_false]

theorem mem_dictInsert (d : List (String × FieldSpec)) (k : String)
    (v : FieldSpec) (p : String × FieldSpec) (hp : p ∈ dictInsert d k v) :
    p ∈ d ∨ p = (k, v) := by
  unfold dictInsert at hp
  by_cases h : d.any (fun q => q.fst == k) = true
  · rw [if_pos h] at hp
    obtain ⟨q, hq, hg⟩ := List.mem_map.mp hp
    by_cases hqk : (q.fst == k) = true
    · right
      rw [← hg, if_pos hqk]
    · left
      rw [← hg, if_neg hqk]
      exact hq
  · rw [if_neg h] at hp
    rcases List.mem_append.mp hp with h1 | h1
    · exact Or.inl h1
    · exact Or.inr (List.mem_singleton.mp h1)

theorem any_filterFieldsStep (d : List (String × FieldSpec)) (col : Column)
    (k : String) :
    (filterFieldsStep d col).any (fun p => p.fst == k) =
      (d.any (fun p => p.fst == k) || colContrib col k) := by
  obtain ⟨nm, ty⟩ := col
  cases ty <;>
    simp only [filterFieldsStep, colContrib, any_dictInsert, Bool.or_assoc,
      Bool.or_false]

theorem any_foldl_filterFields (cols : List Column)
    (d : List (String × FieldSpec)) (k : String) :
    (cols.foldl filterFieldsStep d).any (fun p => p.fst == k) =
      (d.any (fun p => p.fst == k) || cols.any (fun col => colContrib col k)) := by
  induction cols generalizing d with
  | nil => rw [List.foldl_nil, List.any_nil, Bool.or_false]
  | cons col rest ih =>
    rw [List.foldl_cons, ih, any_filterFieldsStep, List.any_cons, Bool.or_assoc]

theorem default_none_filterFieldsStep (d : List (String × FieldSpec))
    (col : Column) (hd : ∀ p ∈ d, (p : String × FieldSpec).snd.default = none) :
    ∀ p ∈ filterFieldsStep d col, p.snd.default = none := by
  intro p hp
  obtain ⟨nm, ty⟩ := col
  cases ty <;> simp only [filterFieldsStep] at hp
  case integer =>
    rcases mem_dictInsert _ _ _ _ hp with hp2 | hpe
    · rcases mem_dictInsert _ _ _ _ hp2 with hp3 | hpe
      · rcases mem_dictInsert _ _ _ _ hp3 with hp4 | hpe
        · exact hd p hp4
        · rw [hpe]
      · rw [hpe]
    · rw [hpe]
  case string =>
    rcases mem_dictInsert _ _ _ _ hp with hp2 | hpe
    · rcases mem_dictInsert _ _ _ _ hp2 with hp3 | hpe
      · exact hd p hp3
      · rw [hpe]
    · rw [hpe]
  case other => exact hd p hp

theorem default_none_foldl (cols : List Column) (d : List (String × FieldSpec))
    (hd : ∀ p ∈ d, (p : String × FieldSpec).snd.default = none) :
    ∀ p ∈ cols.foldl filterFieldsStep d, p.snd.default = none := by
  induction cols generalizing d with
  | nil => exact hd
  | cons col rest ih =>
    rw [List.foldl_cons]
    exact ih _ (default_none_filterFieldsStep d col hd)

theorem colContrib_iff (col : Column) (k : String) :
    colContrib col k = true ↔
      (col.type = ColumnType.integer ∧
        (k = col.name ∨ k = col.name ++ "_lt" ∨ k = col.name ++ "_gt")) ∨
      (col.type = ColumnType.string ∧
        (k = col.name ∨ k = col.name ++ "_like")) := by
  obtain ⟨nm, ty⟩ := col
  cases ty with
  | integer =>
    simp only [colContrib, Bool.or_eq_true, beq_iff_eq]
    constructor
    · rintro ((h | h) | h)
      · exact Or.inl ⟨trivial, Or.inl h.symm⟩
      · exact Or.inl ⟨trivial, Or.inr (Or.inl h.symm)⟩
      · exact Or.inl ⟨trivial, Or.inr (Or.inr h.symm)⟩
    · rintro (⟨_, h | h | h⟩ | ⟨hc, _⟩)
      · exact Or.inl (Or.inl h.symm)
      · exact Or.inl (Or.inr h.symm)
      · exact Or.inr h.symm
      · cases hc
  | string =>
    simp only [colContrib, Bool.or_eq_true, beq_iff_eq]
    constructor
    · rintro (h | h)
      · exact Or.inr ⟨trivial, Or.inl h.symm⟩
      · exact Or.inr ⟨trivial, Or.inr h.symm⟩
    · rintro (⟨hc, _⟩ | ⟨_, h | h⟩)
      · cases hc
      · exact Or.inl h.symm
      · exact Or.inr h.symm
  | other =>
    simp only [colContrib]
    constructor
    · intro h
      cases h
    · rintro (⟨hc, _⟩ | ⟨hc, _⟩) <;> cases hc

theorem update_object_events (c : Controller) (obj : RowObj)
    (payload : List PayloadField) :
    (update_object c obj payload).events =
      [⟨.UPDATE, obj.cls, some (.schemaData payload), c.context⟩] := by
  have h := applySetattrs_cls obj (dumpSet payload)
  simp only [update_object]
  rw [h]
  split <;> rfl

/-! ### Claim theorems -/

/-- C3: for every entity type, the generated filter schema is named
`<EntityName>Filter`; a field name belongs to it precisely when some
integer column `c` contributes it as one of `c`, `c_lt`, `c_gt`, or some
text column `c` contributes it as one of `c`, `c_like`; columns of other
types contribute no fields (and generation is total — no error path);
every generated field defaults to absent. -/
theorem C3_filter_schema (m : ModelClass) :
    (create_filter_model m).name = m.name ++ "Filter" ∧
    (∀ k : String, (create_filter_model m).hasField k = true ↔
      ∃ col ∈ m.columns,
        (col.type = ColumnType.integer ∧
          (k = col.name ∨ k = col.name ++ "_lt" ∨ k = col.name ++ "_gt")) ∨
        (col.type = ColumnType.string ∧
          (k = col.name ∨ k = col.name ++ "_like"))) ∧
    (∀ p ∈ (create_filter_model m).fields, p.snd.default = none) := by
  refine ⟨rfl, ?_, ?_⟩
  · intro k
    show (m.columns.foldl filterFieldsStep []).any (fun p => p.fst == k) = true ↔ _
    rw [any_foldl_filterFields, List.any_nil, Bool.false_or, List.any_eq_true]
    constructor
    · rintro ⟨col, hcol, hc⟩
      exact ⟨col, hcol, (colContrib_iff col k).mp hc⟩
    · rintro ⟨col, hcol, hc⟩
      exact ⟨col, hcol, (colContrib_iff col k).mpr hc⟩
  · exact default_none_foldl m.columns [] (by intro p hp; cases hp)

/-- C8: `set_context` makes the supplied mapping the controller's ambient
context for the duration of the block (every notification issued by a
mutation run inside the block carries it), and on every exit path — the
block completing normally or raising — the context is reset to the empty
mapping once the block ends. -/
theorem C8_set_context {α : Type} (c : Controller) (ctx : Ctx)
    (body : Controller → Except String α × Controller)
    (r : Except String α) (c2 : Controller)
    (hbody : body { c with context := ctx } = (r, c2)) :
    (set_context c ctx body).fst = r ∧
    (set_context c ctx body).snd.context = [] ∧
    ∀ (obj : RowObj) (payload : List PayloadField),
      (update_object { c with context := ctx } obj payload).events =
        [⟨.UPDATE, obj.cls, some (.schemaData payload), ctx⟩] := by
  refine ⟨?_, rfl, ?_⟩
  · show (body { c with context := ctx }).fst = r
    rw [hbody]
  · intro obj payload
    exact update_object_events { c with context := ctx } obj payload

/-- C8 witness: a block that raises still leaves the context reset to the
empty mapping, and the raised error is propagated. -/
theorem C8_witness :
    (set_context userCtrl ctxW bodyFail).fst = .error "ctx fail" ∧
    (set_context userCtrl ctxW bodyFail).snd.context = [] := by
  have h := C8_set_context userCtrl ctxW bodyFail (.error "ctx fail")
    { userCtrl with context := ctxW } rfl
  exact ⟨h.1, h.2.1⟩

/-- C2: registered processors are invoked in registration order,
synchronously, on every successful mutation (`create`, `update_object`,
`delete`); `get_many` with a pagination strategy configured delegates to
the strategy and performs no processor notification, while `get_many`
without pagination notifies processors (with the `READ` operation). -/
theorem C2_processor_policy
    (c : Controller) (db : List RowObj) (payload : List PayloadField)
    (obj : RowObj) (filters : Option (List PayloadField))
    (mc : ModelClass) (rows : List RowObj)
    (hres : getActualModel c.model payload = .ok mc)
    (hq : queryRows c db filters = .ok rows)
    (hsucc : ∀ p ∈ c.processors, ∀ ev, p.behavior ev = .ok ()) :
    ((create c db payload).events =
        [⟨.CREATE, mc, some (.schemaData payload), c.context⟩] ∧
      (create c db payload).invoked = c.processors.map Proc.pid) ∧
    ((update_object c obj payload).events =
        [⟨.UPDATE, obj.cls, some (.schemaData payload), c.context⟩] ∧
      (update_object c obj payload).invoked = c.processors.map Proc.pid) ∧
    ((delete c obj).events =
        [⟨.DELETE, obj.cls, some (.rowData obj), c.context⟩] ∧
      (delete c obj).invoked = c.processors.map Proc.pid) ∧
    (c.paginate = true →
      (get_many c db filters).result = .ok (.paged rows) ∧
      (get_many c db filters).events = [] ∧
      (get_many c db filters).invoked = []) ∧
    (c.paginate = false →
      (get_many c db filters).events =
        [⟨.READ, c.model, filters.map .schemaData, c.context⟩] ∧
      (get_many c db filters).invoked = c.processors.map Proc.pid ∧
      (get_many c db filters).result = .ok (.allRows rows)) := by
  have hall : ∀ ev, notifyTrace c.processors ev = (c.processors.map Proc.pid, none) :=
    fun ev => notifyTrace_all_ok _ _ (fun p hp => hsucc p hp ev)
  refine ⟨⟨?_, ?_⟩, ⟨?_, ?_⟩, ⟨?_, ?_⟩, ?_, ?_⟩
  · simp [create, hres, hall]
  · simp [create, hres, hall]
  · simp [update_object, hall, applySetattrs_cls]
  · simp [update_object, hall, applySetattrs_cls]
  · simp [delete, hall]
  · simp [delete, hall]
  · intro hpag
    refine ⟨?_, ?_, ?_⟩ <;> simp [get_many, hq, hpag, hall]
  · intro hpag
    refine ⟨?_, ?_, ?_⟩ <;> simp [get_many, hq, hpag, hall]

/-- C2 witness: two registered processors are both invoked, in order, by a
concrete `create`; a paginated `get_many` makes no notification call while
an unpaginated one makes a single `READ` call. -/
theorem C2_witness :
    ((create userCtrl2 [] payloadW).events =
        [⟨.CREATE, userModel, some (.schemaData payloadW), []⟩] ∧
      (create userCtrl2 [] payloadW).invoked = [0, 1]) ∧
    (get_many userCtrlPag userRows10 none).events = [] ∧
    (get_many userCtrl2 userRows10 none).events =
      [⟨.READ, userModel, none, []⟩] := by
  have hsucc2 : ∀ p ∈ userCtrl2.processors, ∀ ev, p.behavior ev = .ok () := by
    intro p hp ev
    rcases List.mem_cons.mp hp with rfl | hp2
    · rfl
    · rcases List.mem_cons.mp hp2 with rfl | hp3
      · rfl
      · cases hp3
  have hsuccP : ∀ p ∈ userCtrlPag.processors, ∀ ev, p.behavior ev = .ok () := by
    intro p hp ev
    cases hp
  have h2 := C2_processor_policy userCtrl2 userRows10 payloadW objW none
    userModel userRows10 rfl rfl hsucc2
  have hP := C2_processor_policy userCtrlPag userRows10 payloadW objW none
    userModel userRows10 rfl rfl hsuccP
  refine ⟨⟨?_, ?_⟩, ?_, ?_⟩
  · have := (C2_processor_policy userCtrl2 [] payloadW objW none
      userModel [] rfl rfl hsucc2).1.1
    exact this
  · exact (C2_processor_policy userCtrl2 [] payloadW objW none
      userModel [] rfl rfl hsucc2).1.2
  · exact ((hP.2.2.2.1) rfl).2.1
  · exact ((h2.2.2.2.2) rfl).1

/-- C7: processor notification runs in registration order, each processor
to completion before the next; an exception from one processor is not
caught — it propagates out of the mutating operation (`create`,
`update_object`, `delete`) and the processors registered after it are
never invoked. -/
theorem C7_processor_exception
    (c : Controller) (db : List RowObj) (payload : List PayloadField)
    (obj : RowObj) (l1 l2 : List Proc) (p : Proc) (e : String)
    (mc : ModelClass)
    (hres : getActualModel c.model payload = .ok mc)
    (hps : c.processors = l1 ++ p :: l2)
    (h1 : ∀ q ∈ l1, ∀ ev, q.behavior ev = .ok ())
    (hp : ∀ ev, p.behavior ev = .error e) :
    ((create c db payload).result = .error e ∧
      (create c db payload).invoked = l1.map Proc.pid ++ [p.pid]) ∧
    ((update_object c obj payload).result = .error e ∧
      (update_object c obj payload).invoked = l1.map Proc.pid ++ [p.pid]) ∧
    ((delete c obj).result = .error e ∧
      (delete c obj).invoked = l1.map Proc.pid ++ [p.pid]) := by
  have hfail : ∀ ev,
      notifyTrace c.processors ev = (l1.map Proc.pid ++ [p.pid], some e) := by
    intro ev
    rw [hps]
    exact notifyTrace_fail l1 l2 p ev e (fun q hq => h1 q hq ev) (hp ev)
  refine ⟨⟨?_, ?_⟩, ⟨?_, ?_⟩, ⟨?_, ?_⟩⟩
  · simp [create, hres, hfail]
  · simp [create, hres, hfail]
  · simp [update_object, hfail]
  · simp [update_object, hfail]
  · simp [delete, hfail]
  · simp [delete, hfail]

/-- C7 witness: with processors `[0, 1, 2]` where processor `1` raises, a
concrete `create` propagates the error and invokes only processors `0`
and `1`. -/
theorem C7_witness :
    (create userCtrlFail [] payloadW).result = .error "processor boom" ∧
    (create userCtrlFail [] payloadW).invoked = [0, 1] := by
  have h := C7_processor_exception userCtrlFail [] payloadW objW
    [okProc 0] [okProc 2] (failProc 1 "processor boom") "processor boom"
    userModel rfl rfl
    (by
      intro q hq ev
      rcases List.mem_cons.mp hq with rfl | hq2
      · rfl
      · cases hq2)
    (fun ev => rfl)
  exact ⟨h.1.1, h.1.2⟩

/-- C5: `create` builds the new row from exactly the payload fields that
are both explicitly set and non-null (unset or null fields are excluded),
appends it to the table (add + flush), notifies processors with
`(CREATE, resolved type, original payload, current context)`, and returns
the new row. -/
theorem C5_create_semantics
    (c : Controller) (db : List RowObj) (payload : List PayloadField)
    (mc : ModelClass)
    (hres : getActualModel c.model payload = .ok mc)
    (hsucc : ∀ p ∈ c.processors, ∀ ev, p.behavior ev = .ok ()) :
    (create c db payload).db = db ++ [createdRow mc payload] ∧
    (create c db payload).result = .ok (createdRow mc payload) ∧
    (create c db payload).events =
      [⟨.CREATE, mc, some (.schemaData payload), c.context⟩] ∧
    (createdRow mc payload).cls = mc ∧
    (∀ (n : String) (v : Value),
      (n, some v) ∈ (createdRow mc payload).attrs ↔
        ∃ f ∈ payload, f.name = n ∧ f.isSet = true ∧ f.value = some v) ∧
    (∀ nw ∈ (createdRow mc payload).attrs, ∃ v : Value, nw.snd = some v) := by
  have hall : ∀ ev,
      notifyTrace c.processors ev = (c.processors.map Proc.pid, none) :=
    fun ev => notifyTrace_all_ok _ _ (fun p hp => hsucc p hp ev)
  refine ⟨?_, ?_, ?_, rfl, ?_, ?_⟩
  · simp [create, hres, hall]
  · simp [create, hres, hall]
  · simp [create, hres, hall]
  · intro n v
    constructor
    · intro h
      simp only [createdRow, List.mem_map] at h
      obtain ⟨nv, hnv, heq⟩ := h
      obtain ⟨a, b⟩ := nv
      obtain ⟨h1, h2⟩ := Prod.mk.inj heq
      subst h1
      have hb : b = v := Option.some.inj h2
      subst hb
      exact (mem_dumpSetNonNull payload a b).mp hnv
    · intro h
      have hm := (mem_dumpSetNonNull payload n v).mpr h
      simp only [createdRow, List.mem_map]
      exact ⟨(n, v), hm, rfl⟩
  · intro nw hnw
    simp only [createdRow, List.mem_map] at hnw
    obtain ⟨nv, hnv, heq⟩ := hnw
    exact ⟨nv.snd, by rw [← heq]⟩

/-- C5 witness: a concrete `create` on a payload with one set non-null
field, one explicitly null field and one unset field stores exactly the
set non-null field, notifies with the original payload, and returns the
new row. -/
theorem C5_witness :
    (create userCtrl []
        [⟨"name", true, some (.vStr "test")⟩, ⟨"id", true, none⟩,
         ⟨"extra", false, some (.vInt 9)⟩]).result =
      .ok ⟨userModel, [("name", some (.vStr "test"))]⟩ ∧
    (create userCtrl []
        [⟨"name", true, some (.vStr "test")⟩, ⟨"id", true, none⟩,
         ⟨"extra", false, some (.vInt 9)⟩]).events =
      [⟨.CREATE, userModel,
        some (.schemaData
          [⟨"name", true, some (.vStr "test")⟩, ⟨"id", true, none⟩,
           ⟨"extra", false, some (.vInt 9)⟩]), []⟩] := by
  have h := C5_create_semantics userCtrl []
    [⟨"name", true, some (.vStr "test")⟩, ⟨"id", true, none⟩,
     ⟨"extra", false, some (.vInt 9)⟩] userModel rfl
    (fun p hp => absurd hp (List.not_mem_nil p))
  exact ⟨h.2.1, h.2.2.1⟩

/-- C6: `update_object` applies every explicitly-set payload field onto the
row — including fields explicitly set to null, with no null filtering,
unlike `create` which excludes nulls — leaves other attributes and the
row's concrete class unchanged, notifies processors with
`(UPDATE, row's concrete type, payload, context)`, and returns the updated
row. -/
theorem C6_update_semantics
    (c : Controller) (obj : RowObj) (payload : List PayloadField)
    (hname : (payload.map PayloadField.name).Nodup)
    (hsucc : ∀ p ∈ c.processors, ∀ ev, p.behavior ev = .ok ()) :
    (update_object c obj payload).obj = applySetattrs obj (dumpSet payload) ∧
    (update_object c obj payload).result =
      .ok (applySetattrs obj (dumpSet payload)) ∧
    (update_object c obj payload).obj.cls = obj.cls ∧
    (update_object c obj payload).events =
      [⟨.UPDATE, obj.cls, some (.schemaData payload), c.context⟩] ∧
    (∀ f ∈ payload, f.isSet = true →
      rowGetCell (update_object c obj payload).obj f.name = some f.value) ∧
    (∀ a : String, (∀ f ∈ payload, f.isSet = true → f.name ≠ a) →
      rowGetCell (update_object c obj payload).obj a = rowGetCell obj a) ∧
    (∀ f ∈ payload, f.isSet = true →
      (f.name, f.value) ∈ dumpSet payload ∧
        (f.value = none → dumpSetNonNull [f] = [])) := by
  have hall : ∀ ev,
      notifyTrace c.processors ev = (c.processors.map Proc.pid, none) :=
    fun ev => notifyTrace_all_ok _ _ (fun p hp => hsucc p hp ev)
  have hobj : (update_object c obj payload).obj =
      applySetattrs obj (dumpSet payload) := by
    simp only [update_object]
    split <;> rfl
  refine ⟨hobj, ?_, ?_, update_object_events c obj payload, ?_, ?_, ?_⟩
  · simp [update_object, hall]
  · rw [hobj, applySetattrs_cls]
  · intro f hf hset
    rw [hobj]
    exact applySetattrs_get_mem obj (dumpSet payload) f.name f.value
      (mem_dumpSet payload f hf hset) (dumpSet_names_nodup payload hname)
  · intro a ha
    rw [hobj]
    exact applySetattrs_get_notin obj _ a (dumpSet_names_ne payload a ha)
  · intro f hf hset
    exact ⟨mem_dumpSet payload f hf hset,
      fun hnull => dumpSetNonNull_excluded f (Or.inr hnull)⟩

/-- C6 witness: a concrete `update_object` with a payload explicitly
nulling `name` stores NULL in that attribute (while `create` would have
dropped it) and returns the updated row. -/
theorem C6_witness :
    rowGetCell (update_object userCtrl objW updPayloadW).obj "name" =
      some none ∧
    (update_object userCtrl objW updPayloadW).result =
      .ok ⟨userModel, [("id", some (.vInt 1)), ("name", none)]⟩ ∧
    dumpSetNonNull [(⟨"name", true, none⟩ : PayloadField)] = [] := by
  have h := C6_update_semantics userCtrl objW updPayloadW
    (by simp [updPayloadW])
    (fun p hp => absurd hp (List.not_mem_nil p))
  refine ⟨?_, ?_, ?_⟩
  · exact h.2.2.2.2.1 ⟨"name", true, none⟩ (List.mem_singleton.mpr rfl) rfl
  · rw [h.2.1]
    rfl
  · exact (h.2.2.2.2.2.2 ⟨"name", true, none⟩
      (List.mem_singleton.mpr rfl) rfl).2 rfl

theorem find?_no_match_prefix (l1 l2 : List ModelClass) (s1 : ModelClass)
    (p : ModelClass → Bool)
    (h1 : ∀ s ∈ l1, p s = false) (hs1 : p s1 = true) :
    (l1 ++ s1 :: l2).find? p = some s1 := by
  induction l1 with
  | nil => exact find?_cons_true p s1 l2 hs1
  | cons q rest ih =>
    rw [List.cons_append,
      find?_cons_false p q _ (h1 q (List.mem_cons_self _ _))]
    exact ih (fun s hs => h1 s (List.mem_cons_of_mem _ hs))

/-- C1 counterexample to the claim as stated: `subEmptyIdent` is a declared
direct subclass of `emptyIdentBase` whose polymorphic identity (the empty
string) equals the payload's discriminator field, yet `create` raises the
resolution error, because the code treats a falsy discriminator value the
same as an absent one. -/
theorem C1_counterexample :
    emptyIdentBase.polymorphOn = some "type" ∧
    subEmptyIdent ∈ emptyIdentBase.subclasses ∧
    subEmptyIdent.polymorphicIdentity =
      getattrPayload emptyIdentPayload "type" ∧
    (create emptyIdentCtrl [] emptyIdentPayload).result =
      .error "Cannot resolve the actual model for EmptyBase" :=
  ⟨rfl, List.mem_singleton.mpr rfl, rfl, rfl⟩

/-- C1 (amended): for a controller bound to a polymorphic entity type,
`create` resolves the concrete subtype from the payload's discriminator
value, which must additionally be truthy (non-empty, non-zero): if the
discriminator is absent or falsy, or no declared direct subclass's
polymorphic identity equals it, `create` raises a resolution error whose
message names the entity; otherwise resolution returns the first declared
subclass whose identity equals the discriminator and `create` proceeds
with it. -/
theorem C1_polymorphic_resolution
    (c : Controller) (db : List RowObj) (payload : List PayloadField)
    (attr : String)
    (hpoly : c.model.polymorphOn = some attr) (hattr : attr ≠ "") :
    ((truthy (getattrPayload payload attr) = false ∨
        ∀ s ∈ c.model.subclasses,
          (s.polymorphicIdentity == getattrPayload payload attr) = false) →
      (create c db payload).result =
        .error ("Cannot resolve the actual model for " ++ c.model.name) ∧
      (create c db payload).db = db ∧
      (create c db payload).events = []) ∧
    (∀ sub, truthy (getattrPayload payload attr) = true →
      c.model.subclasses.find?
        (fun s => s.polymorphicIdentity == getattrPayload payload attr) =
        some sub →
      getActualModel c.model payload = .ok sub ∧
      (create c db payload).events =
        [⟨.CREATE, sub, some (.schemaData payload), c.context⟩]) := by
  have hne : ¬((attr == "") = true) := by simpa using hattr
  constructor
  · intro hcond
    have hgam : getActualModel c.model payload =
        .error ("Cannot resolve the actual model for " ++ c.model.name) := by
      simp only [getActualModel, hpoly]
      rw [if_neg hne]
      cases htru : truthy (getattrPayload payload attr) with
      | false => rw [if_neg (by simp [htru])]
      | true =>
        rw [if_pos rfl]
        rcases hcond with hfalse | hnone
        · rw [htru] at hfalse
          cases hfalse
        · rw [List.find?_eq_none.mpr (fun s hs => by simp [hnone s hs])]
    refine ⟨?_, ?_, ?_⟩ <;> simp [create, hgam]
  · intro sub htru hfind
    have hgam : getActualModel c.model payload = .ok sub := by
      simp only [getActualModel, hpoly]
      rw [if_neg hne, if_pos htru, hfind]
    refine ⟨hgam, ?_⟩
    simp only [create, hgam]
    split <;> rfl

/-- C1 witness: on the polymorphic test hierarchy, a payload with an
unmatched truthy discriminator makes `create` fail with the error naming
the entity, while a payload selecting `SubModelA` resolves to that
subclass. -/
theorem C1_witness :
    (create polyCtrl [] [⟨"type", true, some (.vStr "nope")⟩]).result =
      .error "Cannot resolve the actual model for PolymorphicModel" ∧
    getActualModel polyModel [⟨"type", true, some (.vStr "SubModelA")⟩] =
      .ok subModelA := by
  have h1 := (C1_polymorphic_resolution polyCtrl []
    [⟨"type", true, some (.vStr "nope")⟩] "type" rfl (by decide)).1
  have h2 := (C1_polymorphic_resolution polyCtrl []
    [⟨"type", true, some (.vStr "SubModelA")⟩] "type" rfl (by decide)).2
  exact ⟨(h1 (Or.inr (by decide))).1, (h2 subModelA (by decide) rfl).1⟩

/-- C10: subtype resolution in `create` scans only the direct subclasses of
the bound entity type — a discriminator matching only an indirect
(transitive, non-direct) subclass still raises the resolution error — and
when several direct subclasses declare the same polymorphic identity the
first in subclass order is returned with no uniqueness check. -/
theorem C10_direct_subclass_scan
    (c : Controller) (db : List RowObj) (payload : List PayloadField)
    (attr : String) (v : Value)
    (hpoly : c.model.polymorphOn = some attr) (hattr : attr ≠ "")
    (hdisc : getattrPayload payload attr = some v)
    (htru : truthy (some v) = true) :
    ((∀ s ∈ c.model.subclasses, (s.polymorphicIdentity == some v) = false) →
      (∃ s ∈ c.model.subclasses, ∃ t ∈ s.subclasses,
        t.polymorphicIdentity = some v) →
      (create c db payload).result =
        .error ("Cannot resolve the actual model for " ++ c.model.name)) ∧
    (∀ l1 s1 l2, c.model.subclasses = l1 ++ s1 :: l2 →
      (∀ s ∈ l1, (s.polymorphicIdentity == some v) = false) →
      (s1.polymorphicIdentity == some v) = true →
      getActualModel c.model payload = .ok s1) := by
  have hne : ¬((attr == "") = true) := by simpa using hattr
  constructor
  · intro hnone _hindirect
    have hgam : getActualModel c.model payload =
        .error ("Cannot resolve the actual model for " ++ c.model.name) := by
      simp only [getActualModel, hpoly]
      rw [if_neg hne, hdisc, if_pos htru,
        List.find?_eq_none.mpr (fun s hs => by simp [hnone s hs])]
    simp [create, hgam]
  · intro l1 s1 l2 hps h1 hs1
    have hfind : c.model.subclasses.find?
        (fun s => s.polymorphicIdentity == some v) = some s1 := by
      rw [hps]
      exact find?_no_match_prefix l1 l2 s1 _ h1 hs1
    simp only [getActualModel, hpoly]
    rw [if_neg hne, hdisc, if_pos htru, hfind]

/-- C10 witness: on a three-level hierarchy, a discriminator matching only
the grand-child raises the resolution error, and a discriminator matching
both direct subclasses resolves to the first of them. -/
theorem C10_witness :
    (create deepCtrl [] payloadDeep).result =
      .error "Cannot resolve the actual model for DeepBase" ∧
    getActualModel deepBase payloadMid = .ok midSubA ∧
    midSubB.polymorphicIdentity = midSubA.polymorphicIdentity := by
  have hA := C10_direct_subclass_scan deepCtrl [] payloadDeep "kind"
    (.vStr "deep") rfl (by decide) rfl (by decide)
  have hB := C10_direct_subclass_scan deepCtrl [] payloadMid "kind"
    (.vStr "a") rfl (by decide) rfl (by decide)
  refine ⟨?_, ?_, rfl⟩
  · exact hA.1 (by decide)
      ⟨midSubA, List.mem_cons_self _ _, deepSub, List.mem_singleton.mpr rfl,
        rfl⟩
  · exact hB.2 [] midSubA [midSubB] rfl
      (fun s hs => absurd hs (List.not_mem_nil s)) (by decide)

/-- C4: `get_many` with a filter object translates each set non-null field
by name — `_lt` → less-than and `_gt` → greater-than on the
suffix-stripped column, `_like` → substring match, any other name →
equality — while unset or null fields contribute no predicate; the
returned rows are exactly the table rows satisfying every translated
predicate. -/
theorem C4_filter_translation
    (c : Controller) (db : List RowObj) (fo : List PayloadField)
    (hpag : c.paginate = false)
    (hsucc : ∀ p ∈ c.processors, ∀ ev, p.behavior ev = .ok ())
    (hcols : ∀ fv ∈ dumpSetNonNull fo,
      modelHasAttr c.model (filterFieldBase fv.fst) = true) :
    (get_many c db (some fo)).result =
      .ok (.allRows (db.filter (fun r =>
        (dumpSetNonNull fo).all (fun fv => fieldPred fv.fst fv.snd r)))) ∧
    (∀ f : PayloadField, f.isSet = false ∨ f.value = none →
      (get_many c db (some (fo ++ [f]))).result =
        (get_many c db (some fo)).result) ∧
    (∀ (field : String) (v : Value) (r : RowObj),
      strEndsWith field "_lt" = true →
      fieldPred field v r = cmpLt (rowGet r (strDropRight field 3)) v) ∧
    (∀ (field : String) (v : Value) (r : RowObj),
      strEndsWith field "_gt" = true →
      fieldPred field v r = cmpGt (rowGet r (strDropRight field 3)) v) ∧
    (∀ (field : String) (v : Value) (r : RowObj),
      strEndsWith field "_like" = true →
      fieldPred field v r = cmpLike (rowGet r (strDropRight field 5)) v) ∧
    (∀ (field : String) (v : Value) (r : RowObj),
      strEndsWith field "_lt" = false → strEndsWith field "_gt" = false →
      strEndsWith field "_like" = false →
      fieldPred field v r = (rowGet r field == some v)) := by
  have hall : ∀ ev,
      notifyTrace c.processors ev = (c.processors.map Proc.pid, none) :=
    fun ev => notifyTrace_all_ok _ _ (fun p hp => hsucc p hp ev)
  have hok := applyFilterFields_ok c.model (dumpSetNonNull fo) db hcols
  refine ⟨?_, ?_, ?_, ?_, ?_, ?_⟩
  · simp [get_many, queryRows, hok, hpag, hall]
  · intro f hf
    have hd : dumpSetNonNull (fo ++ [f]) = dumpSetNonNull fo := by
      rw [dumpSetNonNull_append, dumpSetNonNull_excluded f hf,
        List.append_nil]
    simp [get_many, queryRows, hd, hok, hpag, hall]
  · intro field v r hlt
    simp [fieldPred, hlt]
  · intro field v r hgt
    have hlt : strEndsWith field "_lt" = false := by
      rw [strEndsWith_suffix_of_suffix field "_gt" "_lt" hgt (by decide)]
      decide
    simp [fieldPred, hlt, hgt]
  · intro field v r hlike
    have hlt : strEndsWith field "_lt" = false := by
      rw [strEndsWith_suffix_of_suffix field "_like" "_lt" hlike (by decide)]
      decide
    have hgt : strEndsWith field "_gt" = false := by
      rw [strEndsWith_suffix_of_suffix field "_like" "_gt" hlike (by decide)]
      decide
    simp [fieldPred, hlt, hgt, hlike]
  · intro field v r hlt hgt hlike
    simp [fieldPred, hlt, hgt, hlike]

/-- C4 witness: `get_many` with a filter object carrying `id_lt = 5` over
ten rows with sequential identities 1..10 returns exactly the rows with
identity less than 5. -/
theorem C4_witness :
    (get_many userCtrl userRows10 (some foIdLt5)).result =
      .ok (.allRows [mkUserRow 1 "u1", mkUserRow 2 "u2", mkUserRow 3 "u3",
        mkUserRow 4 "u4"]) := by
  have h := (C4_filter_translation userCtrl userRows10 foIdLt5 rfl
    (fun p hp => absurd hp (List.not_mem_nil p)) (by decide)).1
  rw [h]
  rfl

/-- C9: filter-field interpretation in `get_many` is purely name-based:
every set field whose name ends in `_lt`, `_gt` or `_like` is applied as
the corresponding comparison against the attribute named by stripping the
suffix — even when the entity has a column bearing the full suffixed name
(hypothesis `hcol`) — and the applied predicate is insensitive to the
suffixed attribute itself (it depends only on the stripped attribute,
which is a strictly shorter name), so no equality filter on a column whose
own name ends in one of these suffixes can be expressed through the
filter object. -/
theorem C9_name_based_dispatch
    (field : String) (v : Value) (m : ModelClass)
    (hsuf : strEndsWith field "_lt" = true ∨ strEndsWith field "_gt" = true ∨
      strEndsWith field "_like" = true)
    (hcol : modelHasAttr m field = true) :
    filterFieldBase field ≠ field ∧
    (strEndsWith field "_lt" = true →
      ∀ r, fieldPred field v r = cmpLt (rowGet r (filterFieldBase field)) v) ∧
    (strEndsWith field "_lt" = false → strEndsWith field "_gt" = true →
      ∀ r, fieldPred field v r = cmpGt (rowGet r (filterFieldBase field)) v) ∧
    (strEndsWith field "_lt" = false → strEndsWith field "_gt" = false →
      strEndsWith field "_like" = true →
      ∀ r, fieldPred field v r = cmpLike (rowGet r (filterFieldBase field)) v) ∧
    (∀ r r',
      rowGet r (filterFieldBase field) = rowGet r' (filterFieldBase field) →
      fieldPred field v r = fieldPred field v r') := by
  by_cases hlt : strEndsWith field "_lt" = true
  · have hbase : filterFieldBase field = strDropRight field 3 := by
      unfold filterFieldBase
      rw [if_pos hlt]
    have hpred : ∀ r,
        fieldPred field v r = cmpLt (rowGet r (strDropRight field 3)) v := by
      intro r
      unfold fieldPred
      rw [if_pos hlt]
    refine ⟨?_, ?_, ?_, ?_, ?_⟩
    · rw [hbase]
      exact strDropRight_ne field "_lt" hlt (by decide)
    · intro _ r
      rw [hpred r, hbase]
    · intro hlt2 _
      rw [hlt] at hlt2
      cases hlt2
    · intro hlt2 _ _
      rw [hlt] at hlt2
      cases hlt2
    · intro r r' h
      rw [hbase] at h
      rw [hpred r, hpred r', h]
  · have hltf : strEndsWith field "_lt" = false := by
      cases hv : strEndsWith field "_lt" with
      | false => rfl
      | true => exact absurd hv hlt
    by_cases hgt : strEndsWith field "_gt" = true
    · have hbase : filterFieldBase field = strDropRight field 3 := by
        unfold filterFieldBase
        rw [if_neg hlt, if_pos hgt]
      have hpred : ∀ r,
          fieldPred field v r = cmpGt (rowGet r (strDropRight field 3)) v := by
        intro r
        unfold fieldPred
        rw [if_neg hlt, if_pos hgt]
      refine ⟨?_, ?_, ?_, ?_, ?_⟩
      · rw [hbase]
        exact strDropRight_ne field "_gt" hgt (by decide)
      · intro hlt2 r
        rw [hltf] at hlt2
        cases hlt2
      · intro _ _ r
        rw [hpred r, hbase]
      · intro _ hgt2 _
        rw [hgt] at hgt2
        cases hgt2
      · intro r r' h
        rw [hbase] at h
        rw [hpred r, hpred r', h]
    · have hgtf : strEndsWith field "_gt" = false := by
        cases hv : strEndsWith field "_gt" with
        | false => rfl
        | true => exact absurd hv hgt
      have hlike : strEndsWith field "_like" = true := by
        rcases hsuf with h | h | h
        · exact absurd h hlt
        · exact absurd h hgt
        · exact h
      have hbase : filterFieldBase field = strDropRight field 5 := by
        unfold filterFieldBase
        rw [if_neg hlt, if_neg hgt, if_pos hlike]
      have hpred : ∀ r,
          fieldPred field v r = cmpLike (rowGet r (strDropRight field 5)) v := by
        intro r
        unfold fieldPred
        rw [if_neg hlt, if_neg hgt, if_pos hlike]
      refine ⟨?_, ?_, ?_, ?_, ?_⟩
      · rw [hbase]
        exact strDropRight_ne field "_like" hlike (by decide)
      · intro hlt2 r
        rw [hltf] at hlt2
        cases hlt2
      · intro _ hgt2 r
        rw [hgtf] at hgt2
        cases hgt2
      · intro _ _ _ r
        rw [hpred r, hbase]
      · intro r r' h
        rw [hbase] at h
        rw [hpred r, hpred r', h]

/-- C9 witness: for an entity owning both a `score` column and a column
literally named `score_lt`, the filter field `score_lt` targets `score`
(a different name), and two rows differing only in their `score_lt`
attribute are treated identically — equality on `score_lt` is not
expressible. -/
theorem C9_witness :
    filterFieldBase "score_lt" ≠ "score_lt" ∧
    modelHasAttr scoreModel "score_lt" = true ∧
    fieldPred "score_lt" (.vInt 3)
        ⟨scoreModel, [("score", some (.vInt 1)), ("score_lt", some (.vInt 99))]⟩ =
      fieldPred "score_lt" (.vInt 3)
        ⟨scoreModel, [("score", some (.vInt 1)), ("score_lt", some (.vInt 0))]⟩ := by
  have h := C9_name_based_dispatch "score_lt" (.vInt 3) scoreModel
    (Or.inl (by decide)) (by decide)
  exact ⟨h.1, by decide, h.2.2.2.2 _ _ rfl⟩

end ModelCtrl
